import Mathlib

/-!
A verification development for the thermal-report pipeline in
src/utils/excelProcessor.ts.

Embedding conventions:
* JavaScript numbers are modelled as rationals (ℚ); `number | null` becomes
  `Option ℚ` with `none` for `null`.
* The `number | string` metric fields, which hold either a number or the
  sentinel string "N/A", become `Option` values with `none` for "N/A".
* `throw new Error msg` becomes `Except.error msg`.
* Spreadsheet grids (arrays of arrays of cells) become `List (List α)` for an
  arbitrary cell type α, since the structural merge logic never inspects the
  cell values.
-/

namespace HCS

/-- A column of numeric readings: `(number | null)[]` from the source,
one entry per spreadsheet row, `none` marking an absent (null) cell. -/
abbrev NumericColumn := List (Option ℚ)

/-- Result record of `processThermalData`.  The `timeTo` fields are times on
the mapped axis (integers, since they are 60 + an index difference); the
`tempAt` fields are raw readings.  `none` models the "N/A" sentinel. -/
structure ThermalMetrics where
  timeTo100 : Option ℤ
  timeTo150 : Option ℤ
  timeTo180 : Option ℤ
  timeTo200 : Option ℤ
  tempAt1Min : Option ℚ
  tempAt2Min : Option ℚ
  tempAt5Min : Option ℚ
  tempAt10Min : Option ℚ
deriving DecidableEq

/-- Result record of `calculatePhysicalProperties`. -/
structure CalculatedProperties where
  weightGsm : ℚ
  density : ℚ
deriving DecidableEq

/-- Math.abs on the rational model of JavaScript numbers. -/
def jsAbs (q : ℚ) : ℚ := if q < 0 then -q else q

/-- One iteration of the anchor-search loop body of `processThermalData`
(the body of the `for` loop over `tempData`): `acc` holds the running pair
(anchorIndex, minDiff), with `none` standing for the initial state
anchorIndex = -1, minDiff = Number.MAX_VALUE (no candidate seen yet; in the
rational model every first distance beats the initial "infinite" minimum). -/
def anchorStep (refTempAt60s : ℚ) (acc : Option (ℕ × ℚ)) (i : ℕ) (temp : ℚ) :
    Option (ℕ × ℚ) :=
  let diff := jsAbs (temp - refTempAt60s)
  match acc with
  | none => some (i, diff)
  | some (a, d) => if diff < d then some (i, diff) else some (a, d)

/-- The anchor-search loop of `processThermalData`, scanning the suffix of the
column that starts at absolute index `i` with accumulator `acc`. -/
def findAnchorAux (refTempAt60s : ℚ) :
    List (Option ℚ) → ℕ → Option (ℕ × ℚ) → Option (ℕ × ℚ)
  | [], _, acc => acc
  | none :: rest, i, acc => findAnchorAux refTempAt60s rest (i + 1) acc
  | some temp :: rest, i, acc =>
      findAnchorAux refTempAt60s rest (i + 1) (anchorStep refTempAt60s acc i temp)

/-- The anchor search of `processThermalData`: the final `anchorIndex`, with
`none` for the sentinel -1 (which makes the function throw). -/
def findAnchor (tempData : List (Option ℚ)) (refTempAt60s : ℚ) : Option ℕ :=
  (findAnchorAux refTempAt60s tempData 0 none).map Prod.fst

/-- Source helper `getTimeForIndex`: 60 + (idx - anchorIndex). -/
def getTimeForIndex (anchorIndex : ℕ) (idx : ℕ) : ℤ :=
  60 + ((idx : ℤ) - (anchorIndex : ℤ))

/-- Source helper `getIndexForTime`: anchorIndex + (time - 60). -/
def getIndexForTime (anchorIndex : ℕ) (time : ℤ) : ℤ :=
  (anchorIndex : ℤ) + (time - 60)

/-- The scan loop of the source closure `findTimeForTemp`, over the suffix of
the column starting at absolute index `i`: return the mapped time of the
first present value that is ≥ targetTemp. -/
def findTimeForTempAux (anchorIndex : ℕ) (targetTemp : ℚ) :
    List (Option ℚ) → ℕ → Option ℤ
  | [], _ => none
  | none :: rest, i => findTimeForTempAux anchorIndex targetTemp rest (i + 1)
  | some v :: rest, i =>
      if targetTemp ≤ v then some (getTimeForIndex anchorIndex i)
      else findTimeForTempAux anchorIndex targetTemp rest (i + 1)

/-- Source closure `findTimeForTemp` of `processThermalData`, scanning the
whole column from index 0; `none` is the "N/A" result. -/
def findTimeForTemp (tempData : List (Option ℚ)) (anchorIndex : ℕ)
    (targetTemp : ℚ) : Option ℤ :=
  findTimeForTempAux anchorIndex targetTemp tempData 0

/-- Source closure `findTempAtTime` of `processThermalData`: look up the value
at index `getIndexForTime targetTime` when that index is in bounds and the
value there is present; otherwise "N/A" (`none`). -/
def findTempAtTime (tempData : List (Option ℚ)) (anchorIndex : ℕ)
    (targetTime : ℤ) : Option ℚ :=
  let idx := getIndexForTime anchorIndex targetTime
  if 0 ≤ idx ∧ idx < (tempData.length : ℤ) then
    match tempData[idx.toNat]? with
    | some (some v) => some v
    | _ => none
  else none

/-- Source function `processThermalData`: find the anchor (throwing when none
exists) and assemble the eight metrics. -/
def processThermalData (tempData : List (Option ℚ)) (refTempAt60s : ℚ) :
    Except String ThermalMetrics :=
  match findAnchor tempData refTempAt60s with
  | none => Except.error "Could not find reference temperature in the data."
  | some anchorIndex =>
      Except.ok
        { timeTo100 := findTimeForTemp tempData anchorIndex 100
          timeTo150 := findTimeForTemp tempData anchorIndex 150
          timeTo180 := findTimeForTemp tempData anchorIndex 180
          timeTo200 := findTimeForTemp tempData anchorIndex 200
          tempAt1Min := findTempAtTime tempData anchorIndex 60
          tempAt2Min := findTempAtTime tempData anchorIndex 120
          tempAt5Min := findTempAtTime tempData anchorIndex 300
          tempAt10Min := findTempAtTime tempData anchorIndex 600 }

/-- The column-extraction step of source function `readExcelColumn` (the
`jsonData.map` over the decoded grid).  Cells are an arbitrary type α and
`parseNum` models the `parseFloat`-then-`isNaN` coercion, returning `none`
when coercion fails; a missing cell (row shorter than `colIndex`, so
`row[colIndex]` is `undefined` and `parseFloat` yields NaN) also gives
`none`. -/
def readExcelColumn {α : Type} (parseNum : α → Option ℚ)
    (jsonData : List (List α)) (colIndex : ℕ) : List (Option ℚ) :=
  jsonData.map fun row =>
    match row[colIndex]? with
    | none => none
    | some c => parseNum c

/-- Source function `calculatePhysicalProperties`, verbatim on rationals. -/
def calculatePhysicalProperties (thickness weightRaw width length : ℚ) :
    CalculatedProperties :=
  let areaM2 := (width * length) / 1000000
  let weightGsm := if 0 < areaM2 then weightRaw / areaM2 else 0
  let massKg := weightRaw / 1000
  let thicknessM := thickness / 1000
  let volumeM3 := areaM2 * thicknessM
  let density := if 0 < volumeM3 then massKg / volumeM3 else 0
  { weightGsm := weightGsm, density := density }

/-- Running maximum computed by the first loop of `appendToTemplate`
(`maxColCount`): the maximum length of the rows of `sheetData` among
indices 0..n-1, a missing row contributing nothing. -/
def maxColCount {α : Type} (sheetData : List (List α)) : ℕ → ℕ
  | 0 => 0
  | n + 1 =>
      max (maxColCount sheetData n)
        (match sheetData[n]? with
         | some row => row.length
         | none => 0)

/-- The `while` padding loop of `appendToTemplate`: push `pad` cells on the
right until the row is `n` long (no change when it is already that long). -/
def padTo {α : Type} (row : List α) (n : ℕ) (pad : α) : List α :=
  row ++ List.replicate (n - row.length) pad

/-- The in-memory merge step of source function `appendToTemplate` (the part
after decoding, before re-encoding), as a function on grids: compute
`maxColCount` over the rows that will receive a value, then for each index i
with a value, take row i (created empty when missing), pad it to
`maxColCount` and append the value; rows past the value list are kept as
they are.  `pad` stands for the `null` cells the source pushes. -/
def appendToTemplate {α : Type} (sheetData : List (List α))
    (columnValues : List α) (pad : α) : List (List α) :=
  let m := maxColCount sheetData columnValues.length
  (List.range (max sheetData.length columnValues.length)).map fun i =>
    match columnValues[i]? with
    | some v => padTo ((sheetData[i]?).getD []) m pad ++ [v]
    | none => (sheetData[i]?).getD []

/-- The (absolute index, value) pairs of the present entries of a column
suffix whose first cell sits at absolute index `i`. -/
def indexedPresent : List (Option ℚ) → ℕ → List (ℕ × ℚ)
  | [], _ => []
  | none :: rest, i => indexedPresent rest (i + 1)
  | some v :: rest, i => (i, v) :: indexedPresent rest (i + 1)

/-- The anchor property the specification describes: index `a` holds a present
value whose distance to the reference is minimal among all present entries,
and every earlier present entry is strictly farther (earliest index wins
ties). -/
def IsAnchor (tempData : List (Option ℚ)) (refTempAt60s : ℚ) (a : ℕ) : Prop :=
  ∃ v, tempData[a]? = some (some v) ∧
    (∀ (j : ℕ) (w : ℚ), tempData[j]? = some (some w) →
      |v - refTempAt60s| ≤ |w - refTempAt60s|) ∧
    (∀ (j : ℕ), j < a → ∀ (w : ℚ), tempData[j]? = some (some w) →
      |v - refTempAt60s| < |w - refTempAt60s|)

theorem jsAbs_eq_abs (q : ℚ) : jsAbs q = |q| := by
  unfold jsAbs
  rcases lt_or_le q 0 with h | h
  · rw [if_pos h, abs_of_neg h]
  · rw [if_neg (not_lt.mpr h), abs_of_nonneg h]

/-- Claim C9: for every parsed grid, the extracted numeric column has exactly
one entry per source row (its length is the grid's row count, in row order),
a missing cell at the target column index yields the absent marker, a cell
whose numeric coercion fails yields the absent marker, and a cell that
coerces to a number yields exactly that number — extraction never aborts. -/
theorem C9_extractColumn {α : Type} (parseNum : α → Option ℚ)
    (jsonData : List (List α)) (colIndex : ℕ) :
    (readExcelColumn parseNum jsonData colIndex).length = jsonData.length ∧
    (∀ (i : ℕ) (row : List α), jsonData[i]? = some row → row[colIndex]? = none →
      (readExcelColumn parseNum jsonData colIndex)[i]? = some none) ∧
    (∀ (i : ℕ) (row : List α) (c : α), jsonData[i]? = some row →
      row[colIndex]? = some c → parseNum c = none →
      (readExcelColumn parseNum jsonData colIndex)[i]? = some none) ∧
    (∀ (i : ℕ) (row : List α) (c : α) (v : ℚ), jsonData[i]? = some row →
      row[colIndex]? = some c → parseNum c = some v →
      (readExcelColumn parseNum jsonData colIndex)[i]? = some (some v)) := by
  refine ⟨List.length_map _ _, ?_, ?_, ?_⟩
  · intro i row h1 h2
    simp [readExcelColumn, List.getElem?_map, h1, h2]
  · intro i row c h1 h2 h3
    simp [readExcelColumn, List.getElem?_map, h1, h2, h3]
  · intro i row c v h1 h2 h3
    simp [readExcelColumn, List.getElem?_map, h1, h2, h3]

/-- Witness for C9 on a concrete grid: the cell "4" at column index 3 of row 0
coerces to the number 4, and row 1 (too short) contributes an absent entry. -/
theorem C9_extractColumn_witness :
    (readExcelColumn (fun s : String => if s = "4" then some 4 else none)
      [["a", "b", "c", "4"], ["x"]] 3)[0]? = some (some 4) ∧
    (readExcelColumn (fun s : String => if s = "4" then some 4 else none)
      [["a", "b", "c", "4"], ["x"]] 3)[1]? = some none := by
  constructor
  · exact (C9_extractColumn (fun s : String => if s = "4" then some 4 else none)
      [["a", "b", "c", "4"], ["x"]] 3).2.2.2 0 ["a", "b", "c", "4"] "4" 4
      rfl rfl (by simp)
  · exact (C9_extractColumn (fun s : String => if s = "4" then some 4 else none)
      [["a", "b", "c", "4"], ["x"]] 3).2.1 1 ["x"] rfl rfl

/-- Claim C8 as stated is false: it asks for arealWeight = weight / area for
every finite input with area ≠ 0, but the code clamps to 0 whenever the area
is not strictly positive.  At thickness 1, weight 500, width -1000,
length 1000 (all finite), the area is -1 ≠ 0 and the claim's formula gives
500 / (-1) = -500 ≠ 0, yet the code returns arealWeight = 0 and
density = 0. -/
theorem C8_counterexample :
    calculatePhysicalProperties 1 500 (-1000) 1000 =
      { weightGsm := 0, density := 0 } ∧
    ((-1000 : ℚ) * 1000) / 1000000 ≠ 0 ∧
    (500 : ℚ) / (((-1000 : ℚ) * 1000) / 1000000) ≠ 0 := by
  norm_num [calculatePhysicalProperties]

/-- Claim C8, amended: the code divides only when the computed area
(resp. volume) is strictly positive and clamps the result to 0 otherwise —
in particular for zero area, as the claim's degenerate case demands, but
also for negative area.  The two concrete cases of the claim hold:
width = length = 1000, weight = 500, thickness = 1 gives arealWeight 500 and
density 500, and width = 0 gives both equal to 0 with no failure. -/
theorem C8_physicalProperties :
    (∀ thickness weightRaw width len : ℚ,
      (0 < width * len / 1000000 →
        (calculatePhysicalProperties thickness weightRaw width len).weightGsm =
          weightRaw / (width * len / 1000000)) ∧
      (¬ 0 < width * len / 1000000 →
        (calculatePhysicalProperties thickness weightRaw width len).weightGsm = 0) ∧
      (0 < width * len / 1000000 * (thickness / 1000) →
        (calculatePhysicalProperties thickness weightRaw width len).density =
          weightRaw / 1000 / (width * len / 1000000 * (thickness / 1000))) ∧
      (¬ 0 < width * len / 1000000 * (thickness / 1000) →
        (calculatePhysicalProperties thickness weightRaw width len).density = 0)) ∧
    calculatePhysicalProperties 1 500 1000 1000 =
      { weightGsm := 500, density := 500 } ∧
    calculatePhysicalProperties 1 500 0 1000 =
      { weightGsm := 0, density := 0 } := by
  refine ⟨?_, by norm_num [calculatePhysicalProperties],
    by norm_num [calculatePhysicalProperties]⟩
  intro thickness weightRaw width len
  refine ⟨fun h => ?_, fun h => ?_, fun h => ?_, fun h => ?_⟩ <;>
    simp [calculatePhysicalProperties, h]

/-- Witness for C8_physicalProperties at thickness 2, weight 600, width 1000,
length 2000: area 2 m², arealWeight 300, volume 0.004 m³, density 150. -/
theorem C8_physicalProperties_witness :
    (calculatePhysicalProperties 2 600 1000 2000).weightGsm = 300 ∧
    (calculatePhysicalProperties 2 600 1000 2000).density = 150 := by
  have h := C8_physicalProperties.1 2 600 1000 2000
  constructor
  · rw [h.1 (by norm_num)]; norm_num
  · rw [h.2.2.1 (by norm_num)]; norm_num

/-- Claim C4: the "temperature at elapsed time S" metric looks up index
anchorIndex + (S - 60); when that index is within bounds it returns the cell
there verbatim when present (`Option.join` of the lookup: a present value is
returned as is, an absent one gives "N/A"), and otherwise "N/A" — with the
claim's two concrete cases: for [90,95,100,105,110] with anchor 2 the
temperature at time 58 is 90 and at time 200 is "N/A". -/
theorem C4_tempAtTime (tempData : List (Option ℚ)) (anchorIndex : ℕ)
    (targetTime : ℤ) :
    (findTempAtTime tempData anchorIndex targetTime =
      if 0 ≤ (anchorIndex : ℤ) + (targetTime - 60) ∧
          (anchorIndex : ℤ) + (targetTime - 60) < (tempData.length : ℤ) then
        (tempData[((anchorIndex : ℤ) + (targetTime - 60)).toNat]?).join
      else none) ∧
    findTempAtTime [some 90, some 95, some 100, some 105, some 110] 2 58 =
      some 90 ∧
    findTempAtTime [some 90, some 95, some 100, some 105, some 110] 2 200 =
      none := by
  refine ⟨?_, by norm_num [findTempAtTime, getIndexForTime, Int.toNat],
    by norm_num [findTempAtTime, getIndexForTime]⟩
  simp only [findTempAtTime, getIndexForTime]
  by_cases hc : 0 ≤ (anchorIndex : ℤ) + (targetTime - 60) ∧
      (anchorIndex : ℤ) + (targetTime - 60) < (tempData.length : ℤ)
  · rw [if_pos hc, if_pos hc]
    cases h : tempData[((anchorIndex : ℤ) + (targetTime - 60)).toNat]? with
    | none => simp [h]
    | some c => cases c <;> simp [h]
  · rw [if_neg hc, if_neg hc]

/-- Claim C3 as stated is false: for the column [90,95,100,105,110] with the
anchor at index 2 (obtained from reference temperature 100), the first row
scanning from index 0 with value ≥ 100 is index 2 itself, whose mapped time
is 60 — the code computes 60, not the claimed 62. -/
theorem C3_counterexample :
    findAnchor [some 90, some 95, some 100, some 105, some 110] 100 = some 2 ∧
    (∃ m, processThermalData [some 90, some 95, some 100, some 105, some 110]
        100 = Except.ok m ∧ m.timeTo100 = some 60 ∧ m.timeTo100 ≠ some 62) := by
  refine ⟨by norm_num [findAnchor, findAnchorAux, anchorStep, jsAbs], ?_⟩
  refine ⟨(⟨some 60, none, none, none, some 100, none, none, none⟩ :
    ThermalMetrics), ?_, rfl, by simp⟩
  norm_num [processThermalData, findAnchor, findAnchorAux, anchorStep, jsAbs,
    findTimeForTemp, findTimeForTempAux, findTempAtTime, getTimeForIndex,
    getIndexForTime, Int.toNat]

theorem findAnchorAux_eq_foldl (refTempAt60s : ℚ) (l : List (Option ℚ)) :
    ∀ (i : ℕ) (acc : Option (ℕ × ℚ)),
      findAnchorAux refTempAt60s l i acc =
        (indexedPresent l i).foldl
          (fun acc p => anchorStep refTempAt60s acc p.1 p.2) acc := by
  induction l with
  | nil => intro i acc; rfl
  | cons x rest ih =>
      intro i acc
      cases x with
      | none => simp only [findAnchorAux, indexedPresent]; exact ih (i + 1) acc
      | some v =>
          simp only [findAnchorAux, indexedPresent, List.foldl_cons]
          exact ih (i + 1) _

theorem indexedPresent_mem (l : List (Option ℚ)) :
    ∀ (i : ℕ) (p : ℕ × ℚ), p ∈ indexedPresent l i →
      i ≤ p.1 ∧ l[p.1 - i]? = some (some p.2) := by
  induction l with
  | nil => intro i p h; simp [indexedPresent] at h
  | cons x rest ih =>
      intro i p h
      cases x with
      | none =>
          obtain ⟨h1, h2⟩ := ih (i + 1) p h
          refine ⟨by omega, ?_⟩
          have he : p.1 - i = (p.1 - (i + 1)) + 1 := by omega
          rw [he]
          simpa using h2
      | some v =>
          simp only [indexedPresent, List.mem_cons] at h
          rcases h with h | h
          · rw [h]
            exact ⟨le_refl i, by simp⟩
          · obtain ⟨h1, h2⟩ := ih (i + 1) p h
            refine ⟨by omega, ?_⟩
            have he : p.1 - i = (p.1 - (i + 1)) + 1 := by omega
            rw [he]
            simpa using h2

theorem indexedPresent_mem_of_getElem (l : List (Option ℚ)) :
    ∀ (i k : ℕ) (w : ℚ), l[k]? = some (some w) →
      (i + k, w) ∈ indexedPresent l i := by
  induction l with
  | nil => intro i k w h; simp at h
  | cons x rest ih =>
      intro i k w h
      cases k with
      | zero =>
          simp only [List.getElem?_cons_zero, Option.some.injEq] at h
          rw [h]
          simp [indexedPresent]
      | succ k =>
          have hm := ih (i + 1) k w (by simpa using h)
          have he : i + (k + 1) = (i + 1) + k := by omega
          rw [he]
          cases x with
          | none => exact hm
          | some v => exact List.mem_cons_of_mem _ hm

theorem indexedPresent_pairwise (l : List (Option ℚ)) :
    ∀ i : ℕ, (indexedPresent l i).Pairwise (fun p q => p.1 < q.1) := by
  induction l with
  | nil => intro i; simp [indexedPresent]
  | cons x rest ih =>
      intro i
      cases x with
      | none => exact ih (i + 1)
      | some v =>
          simp only [indexedPresent]
          refine List.Pairwise.cons ?_ (ih (i + 1))
          intro q hq
          have h1 := (indexedPresent_mem rest (i + 1) q hq).1
          simpa using by omega

theorem indexedPresent_eq_nil (l : List (Option ℚ)) :
    ∀ i : ℕ, indexedPresent l i = [] ↔ ∀ x ∈ l, x = none := by
  induction l with
  | nil => intro i; simp [indexedPresent]
  | cons x rest ih =>
      intro i
      cases x with
      | none => simpa [indexedPresent] using ih (i + 1)
      | some v => simp [indexedPresent]

theorem anchorFold_ne_none (refTempAt60s : ℚ) :
    ∀ (ps : List (ℕ × ℚ)) (q : ℕ × ℚ),
      ps.foldl (fun acc p => anchorStep refTempAt60s acc p.1 p.2) (some q) ≠
        none := by
  intro ps
  induction ps with
  | nil => intro q; simp
  | cons p rest ih =>
      intro q
      obtain ⟨a, d⟩ := q
      simp only [List.foldl_cons, anchorStep]
      by_cases hl : jsAbs (p.2 - refTempAt60s) < d
      · rw [if_pos hl]; exact ih _
      · rw [if_neg hl]; exact ih _

theorem anchorFold_spec (refTempAt60s : ℚ) :
    ∀ (ps : List (ℕ × ℚ)) (a : ℕ) (d : ℚ),
      (∀ p ∈ ps, a < p.1) → ps.Pairwise (fun p q => p.1 < q.1) →
      ∃ b e,
        ps.foldl (fun acc p => anchorStep refTempAt60s acc p.1 p.2)
            (some (a, d)) = some (b, e) ∧
        e ≤ d ∧
        ((b = a ∧ e = d) ∨
          ∃ w, (b, w) ∈ ps ∧ e = jsAbs (w - refTempAt60s) ∧ e < d) ∧
        (∀ p ∈ ps, e ≤ jsAbs (p.2 - refTempAt60s)) ∧
        (∀ p ∈ ps, p.1 < b → e < jsAbs (p.2 - refTempAt60s)) := by
  intro ps
  induction ps with
  | nil =>
      intro a d _ _
      exact ⟨a, d, rfl, le_refl d, Or.inl ⟨rfl, rfl⟩, by simp, by simp⟩
  | cons p0 rest ih =>
      intro a d hseed hsort
      obtain ⟨hhead, htail⟩ := List.pairwise_cons.mp hsort
      by_cases hlt : jsAbs (p0.2 - refTempAt60s) < d
      · obtain ⟨b, e, hfold, hle, hdisj, hmin, htie⟩ :=
          ih p0.1 (jsAbs (p0.2 - refTempAt60s)) hhead htail
        refine ⟨b, e, ?_, ?_, ?_, ?_, ?_⟩
        · simp only [List.foldl_cons, anchorStep]
          rw [if_pos hlt]
          exact hfold
        · exact le_of_lt (lt_of_le_of_lt hle hlt)
        · rcases hdisj with ⟨hb, he⟩ | ⟨w, hw, he, hlt2⟩
          · refine Or.inr ⟨p0.2, ?_, by rw [he], by rw [he]; exact hlt⟩
            rw [hb]
            exact List.mem_cons_self _ _
          · exact Or.inr ⟨w, List.mem_cons_of_mem _ hw, he,
              lt_trans hlt2 hlt⟩
        · intro p hp
          rcases List.mem_cons.mp hp with hp | hp
          · rw [hp]; exact hle
          · exact hmin p hp
        · intro p hp hpb
          rcases List.mem_cons.mp hp with hp | hp
          · rcases hdisj with ⟨hb, _⟩ | ⟨w, _, _, hlt2⟩
            · exact absurd (hb ▸ hpb) (by rw [hp]; exact lt_irrefl _)
            · rw [hp]; exact hlt2
          · exact htie p hp hpb
      · obtain ⟨b, e, hfold, hle, hdisj, hmin, htie⟩ :=
          ih a d (fun p hp => hseed p (List.mem_cons_of_mem _ hp)) htail
        have hd : d ≤ jsAbs (p0.2 - refTempAt60s) := not_lt.mp hlt
        refine ⟨b, e, ?_, hle, ?_, ?_, ?_⟩
        · simp only [List.foldl_cons, anchorStep]
          rw [if_neg hlt]
          exact hfold
        · rcases hdisj with h | ⟨w, hw, he, hlt2⟩
          · exact Or.inl h
          · exact Or.inr ⟨w, List.mem_cons_of_mem _ hw, he, hlt2⟩
        · intro p hp
          rcases List.mem_cons.mp hp with hp | hp
          · rw [hp]; exact le_trans hle hd
          · exact hmin p hp
        · intro p hp hpb
          rcases List.mem_cons.mp hp with hp | hp
          · rcases hdisj with ⟨hb, _⟩ | ⟨w, _, _, hlt2⟩
            · have hap : a < p0.1 := hseed p0 (List.mem_cons_self _ _)
              rw [hp, hb] at hpb
              exact absurd hpb (not_lt.mpr (le_of_lt hap))
            · rw [hp]; exact lt_of_lt_of_le hlt2 hd
          · exact htie p hp hpb

theorem anchorStep_none (refTempAt60s : ℚ) (i : ℕ) (temp : ℚ) :
    anchorStep refTempAt60s none i temp =
      some (i, jsAbs (temp - refTempAt60s)) := rfl

theorem findAnchor_eq_none_iff (tempData : List (Option ℚ))
    (refTempAt60s : ℚ) :
    findAnchor tempData refTempAt60s = none ↔ ∀ x ∈ tempData, x = none := by
  rw [← indexedPresent_eq_nil tempData 0]
  unfold findAnchor
  rw [findAnchorAux_eq_foldl]
  cases hE : indexedPresent tempData 0 with
  | nil => simp
  | cons q rest =>
      rw [List.foldl_cons, anchorStep_none]
      constructor
      · intro h
        exact absurd (Option.map_eq_none'.mp h)
          (anchorFold_ne_none refTempAt60s rest _)
      · intro h
        exact absurd h (List.cons_ne_nil q rest)

theorem findAnchor_some_isAnchor (tempData : List (Option ℚ))
    (refTempAt60s : ℚ) (a : ℕ)
    (h : findAnchor tempData refTempAt60s = some a) :
    IsAnchor tempData refTempAt60s a := by
  have hfold := findAnchorAux_eq_foldl refTempAt60s tempData 0 none
  rw [findAnchor, hfold] at h
  cases hE : indexedPresent tempData 0 with
  | nil => rw [hE] at h; simp at h
  | cons q rest =>
      rw [hE] at h
      have hpw : (q :: rest).Pairwise (fun p q => p.1 < q.1) := by
        rw [← hE]; exact indexedPresent_pairwise tempData 0
      obtain ⟨hhead, htail⟩ := List.pairwise_cons.mp hpw
      obtain ⟨b, e, hf, hle, hdisj, hmin, htie⟩ :=
        anchorFold_spec refTempAt60s rest q.1 (jsAbs (q.2 - refTempAt60s))
          hhead htail
      rw [List.foldl_cons, anchorStep_none, hf] at h
      simp only [Option.map_some', Option.some.injEq] at h
      have hmemE : ∀ p : ℕ × ℚ, p ∈ q :: rest →
          tempData[p.1]? = some (some p.2) := by
        intro p hp
        have := (indexedPresent_mem tempData 0 p (hE ▸ hp)).2
        simpa using this
      have hEmem : ∀ (j : ℕ) (w : ℚ), tempData[j]? = some (some w) →
          (j, w) ∈ q :: rest := by
        intro j w hj
        have := indexedPresent_mem_of_getElem tempData 0 j w hj
        rw [hE] at this
        simpa using this
      obtain ⟨v, hv, hev⟩ : ∃ v, tempData[b]? = some (some v) ∧
          e = jsAbs (v - refTempAt60s) := by
        rcases hdisj with ⟨hb, he⟩ | ⟨w, hw, he, _⟩
        · exact ⟨q.2, by rw [hb]; exact hmemE q (List.mem_cons_self _ _), he⟩
        · exact ⟨w, hmemE (b, w) (List.mem_cons_of_mem _ hw), he⟩
      refine ⟨v, by rw [← h]; exact hv, ?_, ?_⟩
      · intro j w hj
        rw [← jsAbs_eq_abs, ← jsAbs_eq_abs, ← hev]
        rcases List.mem_cons.mp (hEmem j w hj) with hm | hm
        · have hw2 : w = q.2 := congrArg Prod.snd hm
          rw [hw2]
          exact hle
        · exact hmin (j, w) hm
      · intro j hja w hj
        rw [← jsAbs_eq_abs, ← jsAbs_eq_abs, ← hev]
        rw [← h] at hja
        rcases List.mem_cons.mp (hEmem j w hj) with hm | hm
        · have hj1 : j = q.1 := congrArg Prod.fst hm
          have hw2 : w = q.2 := congrArg Prod.snd hm
          rcases hdisj with ⟨hb, _⟩ | ⟨w2, _, _, hlt2⟩
          · rw [hb, ← hj1] at hja
            exact absurd hja (lt_irrefl j)
          · rw [hw2]
            exact hlt2
        · exact htie (j, w) hm hja

/-- Claim C1: for every column with at least one present value and every
reference temperature, the anchor index chosen by processThermalData exists
and is the index of a present value minimizing the distance to the reference
over all present entries, the earliest such index winning ties. -/
theorem C1_anchor (tempData : List (Option ℚ)) (refTempAt60s : ℚ)
    (h : ∃ (i : ℕ) (v : ℚ), tempData[i]? = some (some v)) :
    ∃ a, findAnchor tempData refTempAt60s = some a ∧
      IsAnchor tempData refTempAt60s a := by
  obtain ⟨i, v, hiv⟩ := h
  cases hA : findAnchor tempData refTempAt60s with
  | none =>
      have hall := (findAnchor_eq_none_iff tempData refTempAt60s).mp hA
      have hmem : (some v : Option ℚ) ∈ tempData := by
        have := List.getElem?_eq_some_iff.mp hiv
        obtain ⟨hlt, hget⟩ := this
        exact hget ▸ List.getElem_mem hlt
      exact absurd (hall _ hmem) (by simp)
  | some a =>
      exact ⟨a, rfl, findAnchor_some_isAnchor tempData refTempAt60s a hA⟩

/-- Witness for C1 on the claim's concrete column: [18, 20, 19, absent, 25]
with reference 19 anchors at index 2 (the exact match), and that index
satisfies the minimizing property. -/
theorem C1_anchor_witness :
    findAnchor [some 18, some 20, some 19, none, some 25] 19 = some 2 ∧
    (∃ a, findAnchor [some 18, some 20, some 19, none, some 25] 19 = some a ∧
      IsAnchor [some 18, some 20, some 19, none, some 25] 19 a) := by
  constructor
  · norm_num [findAnchor, findAnchorAux, anchorStep, jsAbs]
  · exact C1_anchor [some 18, some 20, some 19, none, some 25] 19
      ⟨0, 18, rfl⟩

/-- Claim C5: processThermalData fails, with exactly the anchor-not-found
error, precisely when every entry of the column is absent; in the Except
model an error carries no ThermalMetrics record, so no partial results are
produced on failure. -/
theorem C5_anchorNotFound (tempData : List (Option ℚ)) (refTempAt60s : ℚ) :
    ((∃ msg, processThermalData tempData refTempAt60s = Except.error msg) ↔
      ∀ x ∈ tempData, x = none) ∧
    (processThermalData tempData refTempAt60s =
        Except.error "Could not find reference temperature in the data." ↔
      ∀ x ∈ tempData, x = none) := by
  unfold processThermalData
  cases hA : findAnchor tempData refTempAt60s with
  | none =>
      have hall := (findAnchor_eq_none_iff tempData refTempAt60s).mp hA
      exact ⟨⟨fun _ => hall, fun _ => ⟨_, rfl⟩⟩, ⟨fun _ => hall, fun _ => rfl⟩⟩
  | some a =>
      have hnot : ¬ ∀ x ∈ tempData, x = none := by
        intro hall
        rw [(findAnchor_eq_none_iff tempData refTempAt60s).mpr hall] at hA
        exact Option.noConfusion hA
      exact ⟨by simp [hnot], by simp [hnot]⟩

/-- Claim C10: whenever processThermalData succeeds, the "temperature at
elapsed time 60 s" metric is the present value stored at the anchor row —
never "N/A" — since index-for-time 60 is the anchor index itself, which is in
bounds and present by construction. -/
theorem C10_tempAt60 (tempData : List (Option ℚ)) (refTempAt60s : ℚ)
    (m : ThermalMetrics)
    (h : processThermalData tempData refTempAt60s = Except.ok m) :
    ∃ (a : ℕ) (v : ℚ), findAnchor tempData refTempAt60s = some a ∧
      tempData[a]? = some (some v) ∧ m.tempAt1Min = some v := by
  unfold processThermalData at h
  cases hA : findAnchor tempData refTempAt60s with
  | none => rw [hA] at h; exact absurd h (by simp)
  | some a =>
      rw [hA] at h
      obtain ⟨v, hv, -, -⟩ := findAnchor_some_isAnchor tempData refTempAt60s a hA
      refine ⟨a, v, rfl, hv, ?_⟩
      have hm : m.tempAt1Min = findTempAtTime tempData a 60 := by
        simp only [Except.ok.injEq] at h
        rw [← h]
      rw [hm]
      have hlen : a < tempData.length := by
        obtain ⟨hlt, -⟩ := List.getElem?_eq_some_iff.mp hv
        exact hlt
      simp only [findTempAtTime, getIndexForTime]
      rw [if_pos ⟨by omega, by omega⟩]
      have ht : ((a : ℤ) + (60 - 60)).toNat = a := by omega
      rw [ht, hv]

/-- Witness for C10 on the column [18, 20, 19, absent, 25] with reference 19:
the run succeeds with anchor 2 and the temperature-at-60s metric is the
anchor value 19. -/
theorem C10_tempAt60_witness :
    ∃ (a : ℕ) (v : ℚ),
      findAnchor [some 18, some 20, some 19, none, some 25] 19 = some a ∧
      ([some 18, some 20, some 19, none, some 25] :
        List (Option ℚ))[a]? = some (some v) ∧
      (⟨none, none, none, none, some 19, none, none, none⟩ :
        ThermalMetrics).tempAt1Min = some v :=
  C10_tempAt60 [some 18, some 20, some 19, none, some 25] 19
    ⟨none, none, none, none, some 19, none, none, none⟩
    (by norm_num [processThermalData, findAnchor, findAnchorAux, anchorStep,
      jsAbs, findTimeForTemp, findTimeForTempAux, findTempAtTime,
      getTimeForIndex, getIndexForTime, Int.toNat])

theorem findTimeForTempAux_none (anchorIndex : ℕ) (targetTemp : ℚ)
    (l : List (Option ℚ)) :
    ∀ i : ℕ, (∀ (k : ℕ) (v : ℚ), l[k]? = some (some v) → v < targetTemp) →
      findTimeForTempAux anchorIndex targetTemp l i = none := by
  induction l with
  | nil => intro i _; rfl
  | cons x rest ih =>
      intro i h
      cases x with
      | none =>
          simp only [findTimeForTempAux]
          exact ih (i + 1) (fun k v hk => h (k + 1) v (by simpa using hk))
      | some v =>
          have hv : v < targetTemp := h 0 v (by simp)
          simp only [findTimeForTempAux]
          rw [if_neg (not_le.mpr hv)]
          exact ih (i + 1) (fun k w hk => h (k + 1) w (by simpa using hk))

theorem findTimeForTempAux_first (anchorIndex : ℕ) (targetTemp : ℚ)
    (l : List (Option ℚ)) :
    ∀ (i k : ℕ) (v : ℚ), l[k]? = some (some v) → targetTemp ≤ v →
      (∀ (j : ℕ), j < k → ∀ (w : ℚ), l[j]? = some (some w) →
        w < targetTemp) →
      findTimeForTempAux anchorIndex targetTemp l i =
        some (getTimeForIndex anchorIndex (i + k)) := by
  induction l with
  | nil => intro i k v h _ _; simp at h
  | cons x rest ih =>
      intro i k v h hv hfirst
      cases k with
      | zero =>
          simp only [List.getElem?_cons_zero, Option.some.injEq] at h
          subst h
          simp only [findTimeForTempAux]
          rw [if_pos hv, Nat.add_zero]
      | succ k =>
          have harg : (i + 1) + k = i + (k + 1) := by omega
          cases x with
          | none =>
              simp only [findTimeForTempAux]
              have hrec := ih (i + 1) k v (by simpa using h) hv
                (fun j hj w hw => hfirst (j + 1) (by omega) w (by simpa using hw))
              rw [hrec, harg]
          | some w =>
              have hw : w < targetTemp := hfirst 0 (by omega) w (by simp)
              simp only [findTimeForTempAux]
              rw [if_neg (not_le.mpr hw)]
              have hrec := ih (i + 1) k v (by simpa using h) hv
                (fun j hj w2 hw2 =>
                  hfirst (j + 1) (by omega) w2 (by simpa using hw2))
              rw [hrec, harg]

/-- Claim C2: for every column, anchor and target temperature T, the "time to
reach T" metric is 60 + (i - anchorIndex) where i is the smallest index
(scanning from index 0, so rows before the anchor count) whose value is
present and ≥ T, and it is "N/A" when no present value reaches T. -/
theorem C2_timeForTemp (tempData : List (Option ℚ)) (anchorIndex : ℕ)
    (targetTemp : ℚ) :
    (∀ (i : ℕ) (v : ℚ), tempData[i]? = some (some v) → targetTemp ≤ v →
      (∀ (j : ℕ), j < i → ∀ (w : ℚ), tempData[j]? = some (some w) →
        w < targetTemp) →
      findTimeForTemp tempData anchorIndex targetTemp =
        some (60 + ((i : ℤ) - (anchorIndex : ℤ)))) ∧
    ((∀ (k : ℕ) (v : ℚ), tempData[k]? = some (some v) → v < targetTemp) →
      findTimeForTemp tempData anchorIndex targetTemp = none) := by
  constructor
  · intro i v h hv hfirst
    have hrec := findTimeForTempAux_first anchorIndex targetTemp tempData 0 i
      v h hv hfirst
    rw [findTimeForTemp, hrec]
    simp [getTimeForIndex]
  · intro h
    exact findTimeForTempAux_none anchorIndex targetTemp tempData 0 h

/-- Witness for C2 on the column [90, 95, 100, 105, 110] with anchor 2: the
first present value ≥ 100 sits at index 2 so the metric is 60 + (2 - 2) = 60,
and no value reaches 200 so that metric is "N/A". -/
theorem C2_timeForTemp_witness :
    findTimeForTemp [some 90, some 95, some 100, some 105, some 110] 2 100 =
      some 60 ∧
    findTimeForTemp [some 90, some 95, some 100, some 105, some 110] 2 200 =
      none := by
  constructor
  · have h := (C2_timeForTemp [some 90, some 95, some 100, some 105, some 110]
      2 100).1 2 100 rfl (le_refl 100) ?_
    · rw [h]; norm_num
    · intro j hj w hw
      rcases j with _ | _ | j
      · simp only [List.getElem?_cons_zero, Option.some.injEq] at hw
        subst hw; norm_num
      · simp only [List.getElem?_cons_succ, List.getElem?_cons_zero,
          Option.some.injEq] at hw
        subst hw; norm_num
      · omega
  · refine (C2_timeForTemp [some 90, some 95, some 100, some 105, some 110]
      2 200).2 ?_
    intro k v hk
    rcases k with _ | _ | _ | _ | _ | k <;>
      first
        | (simp only [List.getElem?_cons_zero, List.getElem?_cons_succ,
            Option.some.injEq] at hk
           subst hk
           norm_num)
        | simp at hk

theorem padTo_length {α : Type} (row : List α) (n : ℕ) (pad : α)
    (h : row.length ≤ n) : (padTo row n pad).length = n := by
  simp only [padTo, List.length_append, List.length_replicate]
  omega

theorem appendToTemplate_getElem {α : Type} (sheetData : List (List α))
    (columnValues : List α) (pad : α) (i : ℕ) :
    (appendToTemplate sheetData columnValues pad)[i]? =
      if i < max sheetData.length columnValues.length then
        some (match columnValues[i]? with
          | some v =>
              padTo ((sheetData[i]?).getD [])
                (maxColCount sheetData columnValues.length) pad ++ [v]
          | none => (sheetData[i]?).getD [])
      else none := by
  simp only [appendToTemplate, List.getElem?_map]
  by_cases hi : i < max sheetData.length columnValues.length
  · rw [List.getElem?_range hi, if_pos hi]
    rfl
  · rw [if_neg hi, List.getElem?_eq_none (by simpa using hi)]
    rfl

theorem maxColCount_ge {α : Type} (sheetData : List (List α)) :
    ∀ (n i : ℕ), i < n → ∀ row : List α, sheetData[i]? = some row →
      row.length ≤ maxColCount sheetData n := by
  intro n
  induction n with
  | zero => intro i hi; omega
  | succ n ih =>
      intro i hi row hrow
      by_cases hin : i < n
      · exact le_trans (ih i hin row hrow) (le_max_left _ _)
      · have hieq : i = n := by omega
        subst hieq
        simp only [maxColCount]
        rw [hrow]
        exact le_max_right _ _

theorem maxColCount_attained {α : Type} (sheetData : List (List α)) :
    ∀ n : ℕ, maxColCount sheetData n = 0 ∨
      ∃ i < n, ∃ row : List α, sheetData[i]? = some row ∧
        row.length = maxColCount sheetData n := by
  intro n
  induction n with
  | zero => exact Or.inl rfl
  | succ n ih =>
      cases hrow : sheetData[n]? with
      | none =>
          have he : maxColCount sheetData (n + 1) = maxColCount sheetData n := by
            simp only [maxColCount]
            rw [hrow]
            simp
          rcases ih with h | ⟨i, hi, row, hr, hl⟩
          · exact Or.inl (by rw [he]; exact h)
          · exact Or.inr ⟨i, by omega, row, hr, by rw [he]; exact hl⟩
      | some row =>
          have he : maxColCount sheetData (n + 1) =
              max (maxColCount sheetData n) row.length := by
            simp only [maxColCount]
            rw [hrow]
          rcases le_total row.length (maxColCount sheetData n) with hle | hle
          · have he2 : maxColCount sheetData (n + 1) =
                maxColCount sheetData n := by rw [he, max_eq_left hle]
            rcases ih with h | ⟨i, hi, row2, hr, hl⟩
            · exact Or.inl (by rw [he2]; exact h)
            · exact Or.inr ⟨i, by omega, row2, hr, by rw [he2]; exact hl⟩
          · exact Or.inr ⟨n, by omega, row, hrow,
              by rw [he, max_eq_right hle]⟩

theorem append_singleton_getElem {α : Type} (l : List α) (v : α) :
    (l ++ [v])[l.length]? = some v := by
  rw [List.getElem?_append_right (le_refl _)]
  simp

/-- Claim C6: with a 16-value append list, the merge first computes
maxColCount as the maximum existing row length over exactly rows 0..15
(bounding every such row and attained by one of them unless it is 0), and
afterwards every one of rows 0..15 of the result exists, has length
maxColCount + 1, and carries its new value at column index maxColCount. -/
theorem C6_appendShape {α : Type} (sheetData : List (List α))
    (columnValues : List α) (pad : α) (h16 : columnValues.length = 16) :
    (∀ (i : ℕ), i < 16 → ∀ row : List α, sheetData[i]? = some row →
      row.length ≤ maxColCount sheetData 16) ∧
    (maxColCount sheetData 16 = 0 ∨
      ∃ i < 16, ∃ row : List α, sheetData[i]? = some row ∧
        row.length = maxColCount sheetData 16) ∧
    (∀ (i : ℕ), i < 16 → ∃ row : List α,
      (appendToTemplate sheetData columnValues pad)[i]? = some row ∧
        row.length = maxColCount sheetData 16 + 1 ∧
        row[maxColCount sheetData 16]? = columnValues[i]?) := by
  refine ⟨fun i hi row hrow => maxColCount_ge sheetData 16 i hi row hrow,
    maxColCount_attained sheetData 16, ?_⟩
  intro i hi
  have hi16 : i < columnValues.length := by omega
  have hv : columnValues[i]? = some columnValues[i] :=
    List.getElem?_eq_getElem hi16
  have hrowle : ((sheetData[i]?).getD []).length ≤ maxColCount sheetData 16 := by
    cases hrow : sheetData[i]? with
    | none => simp
    | some row => simpa using maxColCount_ge sheetData 16 i hi row hrow
  have hplen : (padTo ((sheetData[i]?).getD []) (maxColCount sheetData 16)
      pad).length = maxColCount sheetData 16 :=
    padTo_length _ _ _ hrowle
  have hout : (appendToTemplate sheetData columnValues pad)[i]? =
      some (padTo ((sheetData[i]?).getD []) (maxColCount sheetData 16) pad ++
        [columnValues[i]]) := by
    rw [appendToTemplate_getElem,
      if_pos (lt_of_lt_of_le hi16 (le_max_right _ _)), hv, h16]
  refine ⟨_, hout, ?_, ?_⟩
  · rw [List.length_append, hplen]
    rfl
  · have hsing := append_singleton_getElem
      (padTo ((sheetData[i]?).getD []) (maxColCount sheetData 16) pad)
      columnValues[i]
    rw [hplen] at hsing
    rw [hsing, hv]

/-- Witness for C6 on the spec's ragged template [[0,1,2],[3],[]] and a
16-value list: maxColCount is 3, and for instance row 5 (created from
nothing) ends up with length 4 and its value 15 at column index 3. -/
theorem C6_appendShape_witness :
    ∃ row : List ℕ,
      (appendToTemplate [[0, 1, 2], [3], []]
        [10, 11, 12, 13, 14, 15, 16, 17, 18, 19, 20, 21, 22, 23, 24, 25]
        9)[5]? = some row ∧
      row.length = 4 ∧ row[3]? = some 15 := by
  have h := (C6_appendShape [[0, 1, 2], [3], []]
    [10, 11, 12, 13, 14, 15, 16, 17, 18, 19, 20, 21, 22, 23, 24, 25]
    9 rfl).2.2 5 (by omega)
  have hm : maxColCount ([[0, 1, 2], [3], []] : List (List ℕ)) 16 = 3 := by
    decide
  rw [hm] at h
  simpa using h

/-- Claim C7: the merge modifies only the 16 rows that receive a value —
every row with index ≥ 16 is returned unchanged, and within rows 0..15 every
pre-existing cell keeps its value and position, the cells between the old
row end and maxColCount being the padding value (the only changes are the
right-padding and the one appended value shown by C6). -/
theorem C7_frame {α : Type} (sheetData : List (List α))
    (columnValues : List α) (pad : α) (h16 : columnValues.length = 16) :
    (∀ i : ℕ, 16 ≤ i →
      (appendToTemplate sheetData columnValues pad)[i]? = sheetData[i]?) ∧
    (∀ i : ℕ, i < 16 → ∀ row : List α, sheetData[i]? = some row →
      ∀ rowOut : List α,
        (appendToTemplate sheetData columnValues pad)[i]? = some rowOut →
        (∀ j : ℕ, j < row.length → rowOut[j]? = row[j]?) ∧
        (∀ j : ℕ, row.length ≤ j → j < maxColCount sheetData 16 →
          rowOut[j]? = some pad)) := by
  constructor
  · intro i hi
    have hcv : columnValues[i]? = none := List.getElem?_eq_none (by omega)
    rw [appendToTemplate_getElem]
    by_cases hmax : i < max sheetData.length columnValues.length
    · rw [if_pos hmax, hcv]
      have hsl : i < sheetData.length := by
        rcases lt_max_iff.mp hmax with h | h
        · exact h
        · omega
      rw [List.getElem?_eq_getElem hsl]
      rfl
    · rw [if_neg hmax]
      have hle : sheetData.length ≤ i := by
        rw [not_lt, max_le_iff] at hmax
        exact hmax.1
      rw [List.getElem?_eq_none hle]
  · intro i hi row hrow rowOut hout
    have hi16 : i < columnValues.length := by omega
    have hv : columnValues[i]? = some columnValues[i] :=
      List.getElem?_eq_getElem hi16
    have hrle : row.length ≤ maxColCount sheetData 16 :=
      maxColCount_ge sheetData 16 i hi row hrow
    rw [appendToTemplate_getElem,
      if_pos (lt_of_lt_of_le hi16 (le_max_right _ _)), hv, h16, hrow] at hout
    simp only [Option.some.injEq, Option.getD_some] at hout
    subst hout
    constructor
    · intro j hj
      rw [List.getElem?_append_left
        (by simp only [padTo, List.length_append, List.length_replicate]; omega)]
      rw [padTo, List.getElem?_append_left hj]
    · intro j hj1 hj2
      rw [List.getElem?_append_left
        (by simp only [padTo, List.length_append, List.length_replicate]; omega)]
      rw [padTo, List.getElem?_append_right hj1,
        List.getElem?_replicate_of_lt (by omega)]

/-- Witness for C7 on the spec's template [[0,1,2],[3],[]]: in row 1 the
pre-existing cell 3 stays at position 0, positions 1 and 2 become padding,
and rows from index 16 on are untouched (absent before and after). -/
theorem C7_frame_witness :
    (appendToTemplate [[0, 1, 2], [3], []]
      [10, 11, 12, 13, 14, 15, 16, 17, 18, 19, 20, 21, 22, 23, 24, 25]
      9)[20]? = ([[0, 1, 2], [3], []] : List (List ℕ))[20]? ∧
    ∃ rowOut : List ℕ,
      (appendToTemplate [[0, 1, 2], [3], []]
        [10, 11, 12, 13, 14, 15, 16, 17, 18, 19, 20, 21, 22, 23, 24, 25]
        9)[1]? = some rowOut ∧
      rowOut[0]? = some 3 ∧ rowOut[1]? = some 9 ∧ rowOut[2]? = some 9 := by
  have h := C7_frame [[0, 1, 2], [3], []]
    [10, 11, 12, 13, 14, 15, 16, 17, 18, 19, 20, 21, 22, 23, 24, 25] 9 rfl
  refine ⟨h.1 20 (by omega), ?_⟩
  have hrow : (appendToTemplate [[0, 1, 2], [3], []]
      [10, 11, 12, 13, 14, 15, 16, 17, 18, 19, 20, 21, 22, 23, 24, 25]
      9)[1]? = some [3, 9, 9, 11] := by decide
  have h2 := h.2 1 (by omega) [3] rfl [3, 9, 9, 11] hrow
  refine ⟨[3, 9, 9, 11], hrow, ?_, ?_, ?_⟩
  · exact (h2.1 0 (by simp)).trans (by simp)
  · exact h2.2 1 (by simp) (by decide)
  · exact h2.2 2 (by simp) (by decide)

/-- Claim C3, amended: for the column [90,95,100,105,110] with reference
temperature 100, the anchor is index 2 (mapping to time 60), and the "time to
reach 100" metric computed by processThermalData equals 60, the mapped time
of the first row (from index 0) whose value is ≥ 100 — namely the anchor row
itself. -/
theorem C3_timeTo100 :
    findAnchor [some 90, some 95, some 100, some 105, some 110] 100 = some 2 ∧
    (∃ m, processThermalData [some 90, some 95, some 100, some 105, some 110]
        100 = Except.ok m ∧ m.timeTo100 = some 60) := by
  refine ⟨by norm_num [findAnchor, findAnchorAux, anchorStep, jsAbs], ?_⟩
  refine ⟨(⟨some 60, none, none, none, some 100, none, none, none⟩ :
    ThermalMetrics), ?_, rfl⟩
  norm_num [processThermalData, findAnchor, findAnchorAux, anchorStep, jsAbs,
    findTimeForTemp, findTimeForTempAux, findTempAtTime, getTimeForIndex,
    getIndexForTime, Int.toNat]

end HCS
